import Mathlib

/-!
Shallow embedding of the replay-matching engine of `capturemock`
(file `src/capturemock/replayinfo.py`): the trace store
(`ReplayInfo.parseTrafficList`, `ReplayedResponseHandler`) and the
match engine (`ReplayInfo.getResponseMapKey`, `ReplayInfo.findBestMatch`,
`ReplayInfo.isBetterMatch`, the difflib block matcher it calls).

Python handlers are heap objects referenced both from the ordered
`responseMap` and from `intermediateHandlers` lists; since every handler
is stored in the map under exactly one key, references are modelled as
keys and the map as an insertion-ordered association list with unique
keys.  Mutation is modelled by explicit state passing.  A Python
`IndexError` / `KeyError` is modelled by `Option` / `Except`.
-/

namespace Replay

/-! ### Python string primitives

The engine uses `str.startswith`, `str.strip`, `in` (character
containment), slicing, `str.split(sep)` for one-character separators and
`str.split()` (whitespace).  They are modelled structurally over the
character list of a `String` so that they evaluate inside the kernel. -/

/-- The Python whitespace class for `str.strip()` / `str.split()`. -/
def pyIsSpace (c : Char) : Bool :=
  c = ' ' || c = '\t' || c = '\n' || c = '\r' || c = '\x0b' || c = '\x0c'

/-- Python `s.startswith(pre)`. -/
def pyStartsWith (s pre : String) : Bool :=
  pre.data.isPrefixOf s.data

/-- Python `s.strip()`: drop leading and trailing whitespace. -/
def pyStrip (s : String) : String :=
  ⟨((s.data.dropWhile pyIsSpace).reverse.dropWhile pyIsSpace).reverse⟩

/-- Python `c in s` for a one-character string `c`. -/
def pyContainsChar (s : String) (c : Char) : Bool :=
  s.data.contains c

/-- Python slicing `s[i:j]`. -/
def pySlice (s : String) (i j : Nat) : String :=
  ⟨(s.data.drop i).take (j - i)⟩

/-- Python slicing `s[i:]`. -/
def pyDropStr (s : String) (i : Nat) : String :=
  ⟨s.data.drop i⟩

/-- Python `s.split(sep)` for a one-character separator: split at every
occurrence, keeping empty pieces. -/
def splitCharAux (c : Char) : List Char → List Char → List String
  | [], acc => [⟨acc.reverse⟩]
  | x :: rest, acc =>
    if x = c then ⟨acc.reverse⟩ :: splitCharAux c rest []
    else splitCharAux c rest (x :: acc)

def pySplitChar (c : Char) (s : String) : List String :=
  splitCharAux c s.data []

/-- Python `s.split()` (no separator): maximal nonempty runs of
non-whitespace characters. -/
def splitWsAux : List Char → List Char → List String
  | [], acc => if acc.isEmpty then [] else [⟨acc.reverse⟩]
  | x :: rest, acc =>
    if pyIsSpace x then
      if acc.isEmpty then splitWsAux rest []
      else (⟨acc.reverse⟩ : String) :: splitWsAux rest []
    else splitWsAux rest (x :: acc)

def pySplitWs (s : String) : List String :=
  splitWsAux s.data []

/-- Model of class `ReplayedResponseHandler` (replayinfo.py lines 220-224).
`responses` is the list of generations, `intermediateHandlers` holds one
list of handler references (modelled as map keys) per registered closing
occurrence. -/
structure ReplayedResponseHandler where
  timesChosen : Nat
  responses : List (List String)
  intermediateHandlers : List (List String)
  deriving Repr, DecidableEq

/-- The store: Python `OrderedDict` from lookup key to handler, modelled as
an insertion-ordered association list with unique keys. -/
abbrev ResponseMap := List (String × ReplayedResponseHandler)

/-- `OrderedDict.get` / `__getitem__`: find the handler stored under a key. -/
def lookupMap : ResponseMap → String → Option ReplayedResponseHandler
  | [], _ => none
  | (k, h) :: rest, key => if k = key then some h else lookupMap rest key

/-- In-place mutation of the handler stored under a key (Python mutates the
shared heap object; keys are unique so this rewrites exactly one entry). -/
def updateMap (m : ResponseMap) (key : String)
    (f : ReplayedResponseHandler → ReplayedResponseHandler) : ResponseMap :=
  m.map (fun p => if p.1 = key then (p.1, f p.2) else p)

/-- `self.responses[-1].append(trafficStr)` (method `addResponse`,
line 236): append a line to the last generation.  Python raises on an
empty list; that state is unreachable because a handler is created with
one (empty) generation. -/
def addToLastGeneration (s : String) : List (List String) → List (List String)
  | [] => []
  | [g] => [g ++ [s]]
  | g :: rest => g :: addToLastGeneration s rest

/-- Truthiness of one handler reference inside `allIntermediatesCalled`
(line 239): the referenced handler has `timesChosen` nonzero. -/
def intermediateCalled (store : ResponseMap) (key : String) : Bool :=
  match lookupMap store key with
  | some h => h.timesChosen != 0
  | none => false

/-- Method `getCurrentStrings` (lines 241-253), with the store passed in so
that `allIntermediatesCalled` (line 239) can dereference the intermediate
handlers.  `none` models the `IndexError` raised when
`intermediateHandlers[timesChosen - 1]` (line 239) or a `responses[...]`
subscript is out of range. -/
def getCurrentStrings (store : ResponseMap) (h : ReplayedResponseHandler) :
    Option (List String × Nat) :=
  if h.intermediateHandlers.length != 0 then
    if h.timesChosen == 0 then
      (h.responses[0]?).map (fun g => (g, 1))
    else
      match h.intermediateHandlers[h.timesChosen - 1]? with
      | none => none
      | some inter =>
        if inter.all (intermediateCalled store) then
          (h.responses[h.timesChosen]?).map (fun g => (g, 1))
        else
          (h.responses[h.timesChosen - 1]?).map (fun g => (g, 0))
  else if h.timesChosen < h.responses.length then
    (h.responses[h.timesChosen]?).map (fun g => (g, 1))
  else
    (h.responses[0]?).map (fun g => (g, 1))

/-- The response list built by the loop of `makeResponses` (lines 260-265):
for each traffic string, every class whose `typeId` equals `trafficStr[2:5]`
contributes `(class, trafficStr[6:])`.  Classes are modelled by their
`typeId` tag. -/
def mkResponseList (allClasses : List String) (trafficStrings : List String) :
    List (String × String) :=
  trafficStrings.foldr
    (fun ts acc =>
      ((allClasses.filter (fun c => c = pySlice ts 2 5)).map
        (fun c => (c, pyDropStr ts 6))) ++ acc) []

/-- Method `makeResponses` (lines 258-267): build the responses for the
current generation and advance `timesChosen` by the returned increment.
Returns the new handler state. -/
def makeResponses (store : ResponseMap) (h : ReplayedResponseHandler)
    (allClasses : List String) :
    Option (List (String × String) × ReplayedResponseHandler) :=
  (getCurrentStrings store h).map
    (fun p => (mkResponseList allClasses p.1,
               { h with timesChosen := h.timesChosen + p.2 }))

/-- Method `getUnmatchedResponseCount` (line 256).  Python integers may go
negative once `timesChosen` exceeds the generation count, so the result is
an `Int`. -/
def getUnmatchedResponseCount (h : ReplayedResponseHandler) : Int :=
  (h.responses.length : Int) - (h.timesChosen : Int)

/-- Method `ReplayInfo.getTrafficLookupKey` (lines 68-71): server traffic
collapses to the single sentinel key. -/
def getTrafficLookupKey (trafficStr : String) : String :=
  if pyStartsWith trafficStr "<-SRV" then "<-SRV" else trafficStr

/-- Method `ReplayInfo.registerIntermediateCalls` (lines 90-97): walk the
ordered map backwards, stop at the current handler (identified by its key,
which is unique), and collect in forward order the keys containing a
parenthesis that were inserted after it. -/
def registerIntermediateCalls (m : ResponseMap) (currKey : String) :
    List String :=
  (((m.reverse.takeWhile (fun p => p.1 ≠ currKey)).filter
      (fun p => pyContainsChar p.1 '(')).map Prod.fst).reverse

/-- Parser state for `parseTrafficList`: the map built so far and the key of
the current response handler (Python local `currResponseHandler`, a
reference into the map). -/
structure ParseState where
  responseMap : ResponseMap
  currKey : Option String
  deriving Repr, DecidableEq

/-- One iteration of the loop in `ReplayInfo.parseTrafficList`
(lines 73-87).  A chunk starting with the inbound marker looks up or
creates the handler for its canonicalized stripped key, appending a new
generation (and, for bare PYT chunks, registering intermediate calls) when
the key already exists; any other chunk is appended to the current
last generation of the current handler. -/
def parseStep (st : ParseState) (trafficStr : String) : ParseState :=
  if pyStartsWith trafficStr "<-" then
    let key := getTrafficLookupKey (pyStrip trafficStr)
    match lookupMap st.responseMap key with
    | some _ =>
      let m1 := updateMap st.responseMap key
        (fun h => { h with responses := h.responses ++ [[]] })
      let m2 :=
        if pyStartsWith trafficStr "<-PYT" && !(pyContainsChar trafficStr '(') then
          updateMap m1 key
            (fun h => { h with intermediateHandlers :=
                h.intermediateHandlers ++ [registerIntermediateCalls m1 key] })
        else m1
      { responseMap := m2, currKey := some key }
    | none =>
      { responseMap :=
          st.responseMap ++ [(key, ⟨0, [[]], []⟩)],
        currKey := some key }
  else
    match st.currKey with
    | some key =>
      { responseMap := updateMap st.responseMap key
          (fun h => { h with responses := addToLastGeneration trafficStr h.responses }),
        currKey := st.currKey }
    | none => st

/-- Method `ReplayInfo.parseTrafficList` (lines 73-88): fold the chunks and
return the resulting response map. -/
def parseTrafficList (trafficList : List String) : ResponseMap :=
  (trafficList.foldl parseStep ⟨[], none⟩).responseMap

/-! ### The difflib block matcher used by `getMatchingBlocks`

`ReplayInfo.getMatchingBlocks` (lines 177-179) calls
`difflib.SequenceMatcher(None, list1, list2).get_matching_blocks()`.
With no junk predicate and inputs far below the autojunk threshold, its
documented behaviour is: `find_longest_match` returns the longest matching
block, ties broken by the smallest start in the first sequence, then the
smallest start in the second; `get_matching_blocks` recurses on the pieces
to the left and right of that block, merges adjacent blocks, and appends a
terminal zero-length block `(len(a), len(b), 0)`. -/

/-- A difflib `Match` triple: start in `a`, start in `b`, length. -/
structure MatchBlock where
  a : Nat
  b : Nat
  size : Nat
  deriving Repr, DecidableEq

/-- Length of the common run at the heads of two lists. -/
def runLen : List String → List String → Nat
  | x :: xs, y :: ys => if x = y then runLen xs ys + 1 else 0
  | _, _ => 0

/-- Length of the matching run starting at positions `i`, `j`. -/
def matchLenAt (a b : List String) (i j : Nat) : Nat :=
  runLen (a.drop i) (b.drop j)

/-- `SequenceMatcher.find_longest_match` over whole sequences (no junk):
the longest matching block, ties broken by smallest start in `a`, then
smallest start in `b`; `(0, 0, 0)` when there is no nonempty match. -/
def findLongestMatch (a b : List String) : Nat × Nat × Nat :=
  (List.range a.length).foldl
    (fun best i =>
      (List.range b.length).foldl
        (fun best j =>
          let k := matchLenAt a b i j
          if best.2.2 < k then (i, j, k) else best)
        best)
    (0, 0, 0)

/-- The recursive block collection of `get_matching_blocks`, producing the
blocks in sorted order with global offsets `oa`, `ob`.  The recursion depth
is bounded by the length of the first slice (each recursive call strictly
shrinks it), so the fuel supplied by `getMatchingBlocks` is never
exhausted. -/
def matchingBlocksFuel : Nat → List String → List String → Nat → Nat →
    List MatchBlock
  | 0, _, _, _, _ => []
  | fuel + 1, a, b, oa, ob =>
    let m := findLongestMatch a b
    let i := m.1
    let j := m.2.1
    let k := m.2.2
    if k = 0 then []
    else
      matchingBlocksFuel fuel (a.take i) (b.take j) oa ob ++
        ⟨oa + i, ob + j, k⟩ ::
          matchingBlocksFuel fuel (a.drop (i + k)) (b.drop (j + k))
            (oa + i + k) (ob + j + k)

/-- The adjacent-block merge loop at the end of `get_matching_blocks`. -/
def mergeAdjacentAux : MatchBlock → List MatchBlock → List MatchBlock
  | cur, [] => if cur.size ≠ 0 then [cur] else []
  | cur, blk :: rest =>
    if cur.a + cur.size = blk.a ∧ cur.b + cur.size = blk.b then
      mergeAdjacentAux ⟨cur.a, cur.b, cur.size + blk.size⟩ rest
    else if cur.size ≠ 0 then cur :: mergeAdjacentAux blk rest
    else mergeAdjacentAux blk rest

def mergeAdjacent (blocks : List MatchBlock) : List MatchBlock :=
  mergeAdjacentAux ⟨0, 0, 0⟩ blocks

/-- Method `ReplayInfo.getMatchingBlocks` (lines 177-179):
`SequenceMatcher.get_matching_blocks`, ending with the terminal
zero-length block. -/
def getMatchingBlocks (list1 list2 : List String) : List MatchBlock :=
  mergeAdjacent (matchingBlocksFuel (list1.length + 1) list1 list2 0 0) ++
    [⟨list1.length, list2.length, 0⟩]

/-- Method `ReplayInfo.commonElementCount` (lines 181-182). -/
def commonElementCount (blocks : List MatchBlock) : Nat :=
  (blocks.map MatchBlock.size).sum

/-- Method `ReplayInfo.lastBlockReachesEnd` (lines 190-192): compares the
second-to-last block with the last (terminal) one.  Only called with at
least two blocks. -/
def lastBlockReachesEnd (blocks : List MatchBlock) : Bool :=
  match blocks.reverse with
  | last :: prev :: _ =>
    prev.a + prev.size == last.a && prev.b + prev.size == last.b
  | _ => false

/-- Method `ReplayInfo.nonMatchingSequenceCount` (lines 184-188). -/
def nonMatchingSequenceCount (blocks : List MatchBlock) : Nat :=
  if 1 < blocks.length ∧ lastBlockReachesEnd blocks then
    blocks.length - 2
  else
    blocks.length - 1

/-! ### Tokenizer and ranking -/

/-- One splitting step of `_getWords`: `desc.split(sep)` for a separator
(the source separators are all one-character strings), `desc.split()` for
`None`. -/
def splitBySep (sep : Option Char) (desc : String) : List String :=
  match sep with
  | some sep => pySplitChar sep desc
  | none => pySplitWs desc

/-- Method `ReplayInfo._getWords` (lines 168-175). -/
def pyGetWords : String → List (Option Char) → List String
  | desc, [] => [desc]
  | desc, sep :: rest =>
    (splitBySep sep desc).foldr (fun part acc => pyGetWords part rest ++ acc) []

/-- The separator cascade of `getWords` (line 165): `/`, `(`, `)`, `\`,
then whitespace (`None`). -/
def wordSeparators : List (Option Char) :=
  [some '/', some '(', some ')', some '\\', none]

/-- Method `ReplayInfo.getWords` (lines 163-166). -/
def getWords (desc : String) : List String :=
  pyGetWords desc wordSeparators

/-- Method `ReplayInfo.sameType` (lines 160-161): compare `desc[2:5]`. -/
def sameType (desc1 desc2 : String) : Bool :=
  pySlice desc1 2 5 == pySlice desc2 2 5

/-- A `matchInfo` pair as built at line 151: the candidate token list and
its unmatched response count.  The initial `bestMatchInfo` (line 146) pairs
an empty set (only its emptiness is ever used) with `100000`. -/
structure MatchInfo where
  words : List String
  unmatched : Int
  deriving Repr, DecidableEq

/-- Method `ReplayInfo.isBetterMatch` (lines 194-216). -/
def isBetterMatch (info1 info2 : MatchInfo) (targetWords : List String) :
    Bool :=
  let blocks1 := getMatchingBlocks info1.words targetWords
  let blocks2 := getMatchingBlocks info2.words targetWords
  let common1 := commonElementCount blocks1
  let common2 := commonElementCount blocks2
  if common2 < common1 then true
  else if common1 < common2 then false
  else
    let nonMatchCount1 := nonMatchingSequenceCount blocks1
    let nonMatchCount2 := nonMatchingSequenceCount blocks2
    if nonMatchCount1 < nonMatchCount2 then true
    else if nonMatchCount2 < nonMatchCount1 then false
    else info2.unmatched < info1.unmatched

/-- Method `ReplayInfo.findBestMatch` (lines 143-158): fold over the store
in insertion order, keeping the candidate that `isBetterMatch` prefers;
the initial best is `None` with sentinel info `(set(), 100000)`. -/
def findBestMatch (m : ResponseMap) (desc : String) : Option String :=
  let descWords := getWords desc
  (m.foldl
    (fun best p =>
      if sameType desc p.1 then
        let matchInfo : MatchInfo := ⟨getWords p.1, getUnmatchedResponseCount p.2⟩
        if isBetterMatch matchInfo best.2 descWords then (some p.1, matchInfo)
        else best
      else best)
    ((none : Option String), (⟨[], 100000⟩ : MatchInfo))).1

/-! ### ReplayInfo lookup -/

/-- The exceptions the lookup path can raise: the distinguished
`config.CaptureMockReplayError` (line 139) versus the builtin
`KeyError` / `IndexError`. -/
inductive ReplayError where
  | captureMockReplayError (msg : String)
  | keyError (key : String)
  | indexError
  deriving Repr, DecidableEq

deriving instance DecidableEq for Except

/-- The fields of `ReplayInfo` the lookup path reads: the store and the
`use_exact_matching` configuration flag (line 20). -/
structure ReplayInfo where
  responseMap : ResponseMap
  exactMatching : Bool
  deriving Repr, DecidableEq

/-- Method `ReplayInfo.getResponseMapKey` (lines 131-141), generalized over
the fuzzy matcher so that independence from it can be stated; the source
method is `getResponseMapKey` below, which instantiates `matcher` with
`findBestMatch` (line 141).  `desc0` stands for
`traffic.getDescription()`. -/
def getResponseMapKeyWith
    (matcher : ResponseMap → String → Option String)
    (info : ReplayInfo) (desc0 : String) (exact : Bool) :
    Except ReplayError (Option String) :=
  let desc := getTrafficLookupKey desc0
  if (lookupMap info.responseMap desc).isSome then
    .ok (some desc)
  else if !exact then
    if info.exactMatching then
      .error (.captureMockReplayError
        ("Could not find any replay request matching " ++ desc))
    else
      .ok (matcher info.responseMap desc)
  else
    .ok none

/-- Method `ReplayInfo.getResponseMapKey` (lines 131-141). -/
def getResponseMapKey (info : ReplayInfo) (desc0 : String) (exact : Bool) :
    Except ReplayError (Option String) :=
  getResponseMapKeyWith findBestMatch info desc0 exact

/-- Method `ReplayInfo.readReplayResponses` (lines 112-122).  `hasInfo`
stands for `traffic.hasInfo()`; the returned `ReplayInfo` carries the
mutated handler state. -/
def readReplayResponses (info : ReplayInfo) (hasInfo : Bool)
    (desc0 : String) (allClasses : List String) (exact : Bool) :
    Except ReplayError (List (String × String) × ReplayInfo) :=
  if !hasInfo then .ok ([], info)
  else
    match getResponseMapKey info desc0 exact with
    | .error e => .error e
    | .ok none => .ok ([], info)
    | .ok (some key) =>
      match lookupMap info.responseMap key with
      | none => .error (.keyError key)
      | some h =>
        match makeResponses info.responseMap h allClasses with
        | none => .error .indexError
        | some (rs, h2) =>
          .ok (rs, { info with
            responseMap := updateMap info.responseMap key (fun _ => h2) })

/-- Iterated lookups of the same query: the result of each call and the
final state. -/
def replaySeq (info : ReplayInfo) (hasInfo : Bool) (desc0 : String)
    (allClasses : List String) (exact : Bool) :
    Nat → Except ReplayError (List (List (String × String)) × ReplayInfo)
  | 0 => .ok ([], info)
  | n + 1 =>
    match readReplayResponses info hasInfo desc0 allClasses exact with
    | .error e => .error e
    | .ok (rs, info2) =>
      match replaySeq info2 hasInfo desc0 allClasses exact n with
      | .error e => .error e
      | .ok (rest, info3) => .ok (rs :: rest, info3)

/-- The iterative separator cascade the spec describes: split every piece
by the first separator, then every resulting piece by the next, in order,
flattening while preserving order. -/
def cascadeSplit (seps : List (Option Char)) (desc : String) : List String :=
  seps.foldl (fun pieces sep => pieces.flatMap (splitBySep sep)) [desc]


/-- The lexicographic ranking implemented by `isBetterMatch`: most covered
tokens first, then fewest non-matching gaps, and as final tiebreak the
candidate with the LARGER unmatched-response count (more remaining
generations) wins. -/
def lexBetterMoreRemaining (info1 info2 : MatchInfo)
    (targetWords : List String) : Bool :=
  let common1 := commonElementCount (getMatchingBlocks info1.words targetWords)
  let common2 := commonElementCount (getMatchingBlocks info2.words targetWords)
  let nonMatch1 := nonMatchingSequenceCount (getMatchingBlocks info1.words targetWords)
  let nonMatch2 := nonMatchingSequenceCount (getMatchingBlocks info2.words targetWords)
  decide (common2 < common1) ||
    (decide (common1 = common2) &&
      (decide (nonMatch1 < nonMatch2) ||
        (decide (nonMatch1 = nonMatch2) &&
          decide (info2.unmatched < info1.unmatched))))

/-- Modelled from the spec: the claimed ranking, identical except that its
final tiebreak is the spec sentence "fewer remaining unconsumed
generations on the candidate wins over more". -/
def lexBetterFewerRemaining (info1 info2 : MatchInfo)
    (targetWords : List String) : Bool :=
  let common1 := commonElementCount (getMatchingBlocks info1.words targetWords)
  let common2 := commonElementCount (getMatchingBlocks info2.words targetWords)
  let nonMatch1 := nonMatchingSequenceCount (getMatchingBlocks info1.words targetWords)
  let nonMatch2 := nonMatchingSequenceCount (getMatchingBlocks info2.words targetWords)
  decide (common2 < common1) ||
    (decide (common1 = common2) &&
      (decide (nonMatch1 < nonMatch2) ||
        (decide (nonMatch1 = nonMatch2) &&
          decide (info1.unmatched < info2.unmatched))))


/-- A recorded trace as inbound chunks each followed by its payload
chunks. -/
def flattenTrace (ps : List (String × List String)) : List String :=
  ps.flatMap (fun p => p.1 :: p.2)

/-! ## Theorems about the claims -/

/-- For a handler without intermediate dependencies, `getCurrentStrings`
returns generation `timesChosen` while in range and wraps to generation 0
afterwards, always with increment 1. -/
lemma getCurrentStrings_no_inter (store : ResponseMap)
    (h : ReplayedResponseHandler) (hIH : h.intermediateHandlers = [])
    (hne : h.responses ≠ []) :
    getCurrentStrings store h =
      some (h.responses.getD
              (if h.timesChosen < h.responses.length then h.timesChosen else 0)
              [], 1) := by
  unfold getCurrentStrings
  rw [hIH]
  simp only [List.length_nil, bne_self_eq_false, Bool.false_eq_true, if_false]
  split_ifs with h1
  · simp [List.getElem?_eq_getElem h1]
  · cases hr : h.responses with
    | nil => exact absurd hr hne
    | cons g gs => simp [hr]

/-- Claim C1 (amended): for a stored entry with no intermediate
dependencies, an exact lookup returns generation `timesChosen` while the
cursor is in range and WRAPS TO GENERATION 0 (the first) once the cursor
has passed the last generation, and always advances the cursor by one. -/
theorem claim_C1 (store : ResponseMap) (h : ReplayedResponseHandler)
    (cls : List String) (hIH : h.intermediateHandlers = [])
    (hne : h.responses ≠ []) :
    makeResponses store h cls =
      some (mkResponseList cls
              (h.responses.getD
                (if h.timesChosen < h.responses.length then h.timesChosen else 0)
                []),
            { h with timesChosen := h.timesChosen + 1 }) := by
  rw [makeResponses, getCurrentStrings_no_inter store h hIH hne]
  rfl

theorem claim_C1_witness :
    makeResponses [] ⟨2, [["->RET:a\n"], ["->RET:b\n"]], []⟩ ["RET"] =
      some ([("RET", "a\n")], ⟨3, [["->RET:a\n"], ["->RET:b\n"]], []⟩) := by
  rw [claim_C1 [] ⟨2, [["->RET:a\n"], ["->RET:b\n"]], []⟩ ["RET"] rfl (by decide)]
  decide

theorem claim_C1_cex :
    replaySeq
        ⟨parseTrafficList ["<-CMD:x\n", "->RET:a\n", "<-CMD:x\n", "->RET:b\n"],
         false⟩
        true "<-CMD:x" ["RET"] false 3 =
      .ok ([[("RET", "a\n")], [("RET", "b\n")], [("RET", "a\n")]],
        ⟨[("<-CMD:x", ⟨3, [["->RET:a\n"], ["->RET:b\n"]], []⟩)], false⟩) ∧
    ([("RET", "a\n")] : List (String × String)) ≠ [("RET", "b\n")] := by
  constructor
  · decide
  · decide

/-- Claim C2: for an entry with recorded intermediate dependencies, the
first lookup (cursor 0) returns generation 0 and advances; a later lookup
advances past generation cursor only if every intermediate entry recorded
for generation cursor-1 has itself been chosen at least once (timesChosen
nonzero); otherwise it returns generation cursor-1 again with the handler
unchanged, so an immediate repeat lookup returns the same generation. -/
theorem claim_C2 (store : ResponseMap) (h : ReplayedResponseHandler)
    (cls : List String) (hIH : h.intermediateHandlers ≠ []) :
    (∀ g0, h.timesChosen = 0 → h.responses[0]? = some g0 →
      makeResponses store h cls =
        some (mkResponseList cls g0, { h with timesChosen := 1 })) ∧
    (∀ t inter, h.timesChosen = t + 1 →
      h.intermediateHandlers[t]? = some inter →
      ((inter.all (intermediateCalled store) = true →
        ∀ g, h.responses[t + 1]? = some g →
          makeResponses store h cls =
            some (mkResponseList cls g, { h with timesChosen := t + 2 })) ∧
       (inter.all (intermediateCalled store) = false →
        ∀ g, h.responses[t]? = some g →
          makeResponses store h cls = some (mkResponseList cls g, h)))) := by
  have hlen : (h.intermediateHandlers.length != 0) = true := by
    simp [List.length_eq_zero]
    exact hIH
  refine ⟨?_, ?_⟩
  · intro g0 ht hg
    rw [makeResponses, getCurrentStrings, hlen, ht]
    simp [hg]
  · intro t inter ht hinter
    refine ⟨?_, ?_⟩
    · intro hall g hg
      rw [makeResponses, getCurrentStrings, hlen, ht]
      simp [hinter, hall, hg]
    · intro hall g hg
      rw [makeResponses, getCurrentStrings, hlen, ht]
      simp [hinter, hall, hg]
      rw [← ht]

theorem claim_C2_witness :
    makeResponses
        [("<-PYT:foo", ⟨1, [["->RET:f1\n"], ["->RET:f2\n"]], [["<-CMD:bar(x)"]]⟩),
         ("<-CMD:bar(x)", ⟨0, [["->RET:b1\n"]], []⟩)]
        ⟨1, [["->RET:f1\n"], ["->RET:f2\n"]], [["<-CMD:bar(x)"]]⟩ ["RET"] =
      some ([("RET", "f1\n")],
        ⟨1, [["->RET:f1\n"], ["->RET:f2\n"]], [["<-CMD:bar(x)"]]⟩) := by
  have hmain :=
    (claim_C2
      [("<-PYT:foo", ⟨1, [["->RET:f1\n"], ["->RET:f2\n"]], [["<-CMD:bar(x)"]]⟩),
       ("<-CMD:bar(x)", ⟨0, [["->RET:b1\n"]], []⟩)]
      ⟨1, [["->RET:f1\n"], ["->RET:f2\n"]], [["<-CMD:bar(x)"]]⟩ ["RET"]
      (by decide)).2 0 ["<-CMD:bar(x)"] rfl (by decide)
  have hres := hmain.2 (by decide) ["->RET:f1\n"] (by decide)
  rw [hres]
  decide

/-- Claim C3: for an entry with a non-empty `intermediateHandlers` list,
exact lookups are not total: once `timesChosen - 1` reaches the number of
recorded intermediate sets, `getCurrentStrings` and `makeResponses`
evaluate `intermediateHandlers[timesChosen - 1]` out of range, modelled as
`none` (the `IndexError`), instead of a clamped or wrapped generation. -/
theorem claim_C3 (store : ResponseMap) (h : ReplayedResponseHandler)
    (cls : List String) (hIH : h.intermediateHandlers ≠ [])
    (ht : 1 ≤ h.timesChosen)
    (hover : h.intermediateHandlers.length ≤ h.timesChosen - 1) :
    getCurrentStrings store h = none ∧ makeResponses store h cls = none := by
  have hlen : (h.intermediateHandlers.length != 0) = true := by
    simp [List.length_eq_zero]
    exact hIH
  have h0 : (h.timesChosen == 0) = false := by
    simp
    omega
  have hnone : h.intermediateHandlers[h.timesChosen - 1]? = none :=
    List.getElem?_eq_none hover
  constructor
  · rw [getCurrentStrings, hlen, h0]
    simp [hnone]
  · rw [makeResponses, getCurrentStrings, hlen, h0]
    simp [hnone]

theorem claim_C3_witness :
    getCurrentStrings [] ⟨2, [[], []], [["<-CMD:bar(x)"]]⟩ = none ∧
    makeResponses [] ⟨2, [[], []], [["<-CMD:bar(x)"]]⟩ [] = none :=
  claim_C3 [] ⟨2, [[], []], [["<-CMD:bar(x)"]]⟩ [] (by decide) (by decide)
    (by decide)

/-- The increment returned by `getCurrentStrings` is at most one and is
zero exactly in the unsatisfied-gate branch. -/
lemma getCurrentStrings_inc (store : ResponseMap)
    (h : ReplayedResponseHandler) (strs : List String) (inc : Nat)
    (hg : getCurrentStrings store h = some (strs, inc)) :
    inc ≤ 1 ∧
    (inc = 0 ↔ h.intermediateHandlers ≠ [] ∧ h.timesChosen ≠ 0 ∧
      ∃ inter, h.intermediateHandlers[h.timesChosen - 1]? = some inter ∧
        inter.all (intermediateCalled store) = false) := by
  unfold getCurrentStrings at hg
  split at hg
  case isTrue hlen =>
    have hne : h.intermediateHandlers ≠ [] := by
      simp only [bne_iff_ne, ne_eq] at hlen
      intro hcon
      exact hlen (by simp [hcon])
    split at hg
    case isTrue h0 =>
      simp only [Option.map_eq_some'] at hg
      obtain ⟨g, -, h2⟩ := hg
      injection h2 with h3 h4
      subst h4
      simp only [beq_iff_eq] at h0
      constructor
      · omega
      · simp [h0]
    case isFalse h0 =>
      split at hg
      case h_1 => exact absurd hg (by simp)
      case h_2 inter hinter =>
        simp only [beq_iff_eq] at h0
        split at hg
        case isTrue hall =>
          simp only [Option.map_eq_some'] at hg
          obtain ⟨g, -, h2⟩ := hg
          injection h2 with h3 h4
          subst h4
          refine ⟨by omega, ?_⟩
          simp only [Nat.succ_ne_zero, ne_eq, false_iff]
          rintro ⟨-, -, inter2, hinter2, hall2⟩
          rw [hinter] at hinter2
          injection hinter2 with h5
          subst h5
          rw [hall] at hall2
          simp at hall2
        case isFalse hall =>
          simp only [Option.map_eq_some'] at hg
          obtain ⟨g, -, h2⟩ := hg
          injection h2 with h3 h4
          subst h4
          refine ⟨by omega, ?_⟩
          simp only [true_iff]
          exact ⟨hne, h0, inter, hinter, by simpa using hall⟩
  case isFalse hlen =>
    have hemp : h.intermediateHandlers = [] := by
      simp only [bne_iff_ne, ne_eq, not_not] at hlen
      exact List.length_eq_zero.mp hlen
    split at hg <;>
    · simp only [Option.map_eq_some'] at hg
      obtain ⟨g, -, h2⟩ := hg
      injection h2 with h3 h4
      subst h4
      exact ⟨by omega, by simp [hemp]⟩

/-- Claim C9: the cursor (`timesChosen`) never decreases: every
`makeResponses` call adds exactly the increment reported by
`getCurrentStrings`, which is one when a generation is consumed and zero
exactly when the unsatisfied intermediate gate re-returns the previous
generation. -/
theorem claim_C9 (store : ResponseMap) (h : ReplayedResponseHandler)
    (cls : List String) (rs : List (String × String))
    (h2 : ReplayedResponseHandler)
    (hmk : makeResponses store h cls = some (rs, h2)) :
    h.timesChosen ≤ h2.timesChosen ∧
    ∃ strs inc, getCurrentStrings store h = some (strs, inc) ∧ inc ≤ 1 ∧
      h2.timesChosen = h.timesChosen + inc ∧
      (inc = 0 ↔ h.intermediateHandlers ≠ [] ∧ h.timesChosen ≠ 0 ∧
        ∃ inter, h.intermediateHandlers[h.timesChosen - 1]? = some inter ∧
          inter.all (intermediateCalled store) = false) := by
  unfold makeResponses at hmk
  cases hgc : getCurrentStrings store h with
  | none =>
    rw [hgc] at hmk
    exact absurd hmk (by simp)
  | some p =>
    obtain ⟨strs, inc⟩ := p
    rw [hgc] at hmk
    simp only [Option.map_some', Option.some.injEq, Prod.mk.injEq] at hmk
    obtain ⟨-, hh2⟩ := hmk
    subst hh2
    obtain ⟨hinc1, hinc0⟩ := getCurrentStrings_inc store h strs inc hgc
    exact ⟨Nat.le_add_right _ _, strs, inc, rfl, hinc1, rfl, hinc0⟩

end Replay

namespace Replay

theorem claim_C9_witness :
    (⟨0, [["->RET:a\n"]], []⟩ : ReplayedResponseHandler).timesChosen ≤
      (⟨1, [["->RET:a\n"]], []⟩ : ReplayedResponseHandler).timesChosen ∧
    ∃ strs inc,
      getCurrentStrings [] ⟨0, [["->RET:a\n"]], []⟩ = some (strs, inc) ∧
      inc ≤ 1 ∧
      (⟨1, [["->RET:a\n"]], []⟩ : ReplayedResponseHandler).timesChosen =
        (⟨0, [["->RET:a\n"]], []⟩ : ReplayedResponseHandler).timesChosen + inc ∧
      (inc = 0 ↔
        (⟨0, [["->RET:a\n"]], []⟩ : ReplayedResponseHandler).intermediateHandlers ≠ [] ∧
        (⟨0, [["->RET:a\n"]], []⟩ : ReplayedResponseHandler).timesChosen ≠ 0 ∧
        ∃ inter,
          (⟨0, [["->RET:a\n"]], []⟩ : ReplayedResponseHandler).intermediateHandlers[
            (⟨0, [["->RET:a\n"]], []⟩ : ReplayedResponseHandler).timesChosen - 1]? =
            some inter ∧
          inter.all (intermediateCalled []) = false) :=
  claim_C9 [] ⟨0, [["->RET:a\n"]], []⟩ ["RET"] [("RET", "a\n")]
    ⟨1, [["->RET:a\n"]], []⟩ (by decide)

lemma foldr_append_eq_flatMap (f : String → List String) (l : List String) :
    l.foldr (fun p acc => f p ++ acc) [] = l.flatMap f := by
  induction l with
  | nil => rfl
  | cons p ps ih => simp [List.flatMap_cons, ih]

lemma pyGetWords_cons (sep : Option Char) (rest : List (Option Char))
    (p : String) :
    pyGetWords p (sep :: rest) =
      (splitBySep sep p).flatMap (fun q => pyGetWords q rest) := by
  rw [pyGetWords, foldr_append_eq_flatMap]

lemma cascade_eq_flatMap (seps : List (Option Char)) (pieces : List String) :
    List.foldl (fun pieces sep => pieces.flatMap (splitBySep sep)) pieces seps =
      pieces.flatMap (fun p => pyGetWords p seps) := by
  induction seps generalizing pieces with
  | nil =>
    simp only [List.foldl_nil]
    have : (fun p => pyGetWords p []) = fun p => [p] := rfl
    rw [this, List.flatMap_singleton']
  | cons sep rest ih =>
    simp only [List.foldl_cons]
    rw [ih, List.flatMap_assoc]
    congr 1
    funext p
    rw [pyGetWords_cons]

theorem claim_C8 (desc : String) :
    getWords desc = cascadeSplit wordSeparators desc := by
  rw [getWords, cascadeSplit, cascade_eq_flatMap, List.flatMap_singleton]

/-- Claim C6 (amended): `isBetterMatch` is lexicographic in exactly the
order covered-token count, then gap count, then the final tiebreak that
prefers the candidate with MORE remaining unconsumed generations. -/
theorem claim_C6 (info1 info2 : MatchInfo) (targetWords : List String) :
    isBetterMatch info1 info2 targetWords =
      lexBetterMoreRemaining info1 info2 targetWords := by
  simp only [isBetterMatch, lexBetterMoreRemaining]
  generalize commonElementCount (getMatchingBlocks info1.words targetWords) = c1
  generalize commonElementCount (getMatchingBlocks info2.words targetWords) = c2
  generalize nonMatchingSequenceCount (getMatchingBlocks info1.words targetWords) = n1
  generalize nonMatchingSequenceCount (getMatchingBlocks info2.words targetWords) = n2
  generalize info1.unmatched = u1
  generalize info2.unmatched = u2
  split_ifs with h1 h2 h3 h4 <;> simp_all <;>
    first
    | omega
    | (have hc : c1 = c2 := by omega
       have hn : n1 = n2 := by omega
       subst hc
       subst hn
       simp)

/-- Claim C6 counterexample: with equal token lists (hence equal covered
counts and gap counts), the candidate with MORE remaining generations
wins, falsifying the spec sentence that fewer remaining generations win. -/
theorem claim_C6_cex :
    isBetterMatch ⟨["a"], 5⟩ ⟨["a"], 3⟩ ["a"] = true ∧
    lexBetterFewerRemaining ⟨["a"], 5⟩ ⟨["a"], 3⟩ ["a"] = false := by
  constructor
  · decide
  · decide

/-- Claim C4: an exact (canonicalized) key hit returns that entry and its
responses, for every fuzzy matcher, every `exact` argument and every
`use_exact_matching` configuration: the fuzzy matcher is never consulted. -/
theorem claim_C4 (matcher : ResponseMap → String → Option String)
    (info : ReplayInfo) (desc0 : String) (exact : Bool) (cls : List String)
    (h : ReplayedResponseHandler)
    (hk : lookupMap info.responseMap (getTrafficLookupKey desc0) = some h) :
    getResponseMapKeyWith matcher info desc0 exact =
      .ok (some (getTrafficLookupKey desc0)) ∧
    getResponseMapKey info desc0 exact =
      getResponseMapKeyWith matcher info desc0 exact ∧
    readReplayResponses info true desc0 cls exact =
      (match makeResponses info.responseMap h cls with
       | none => .error .indexError
       | some (rs, h2) =>
         .ok (rs,
           { info with
             responseMap :=
               updateMap info.responseMap (getTrafficLookupKey desc0)
                 (fun _ => h2) })) := by
  have hsome : (lookupMap info.responseMap (getTrafficLookupKey desc0)).isSome = true := by
    rw [hk]
    rfl
  have h1 : getResponseMapKeyWith matcher info desc0 exact =
      .ok (some (getTrafficLookupKey desc0)) := by
    rw [getResponseMapKeyWith]
    simp [hsome]
  have h2 : getResponseMapKey info desc0 exact =
      .ok (some (getTrafficLookupKey desc0)) := by
    rw [getResponseMapKey, getResponseMapKeyWith]
    simp [hsome]
  refine ⟨h1, by rw [h1, h2], ?_⟩
  rw [readReplayResponses]
  simp only [Bool.not_true, Bool.false_eq_true, if_false]
  rw [h2]
  simp [hk]

end Replay

namespace Replay

theorem claim_C4_witness :
    getResponseMapKeyWith (fun _ _ => some "<-CMD:other")
        ⟨[("<-CMD:x", ⟨0, [["->RET:a\n"]], []⟩)], true⟩ "<-CMD:x" false =
      .ok (some (getTrafficLookupKey "<-CMD:x")) ∧
    getResponseMapKey ⟨[("<-CMD:x", ⟨0, [["->RET:a\n"]], []⟩)], true⟩
        "<-CMD:x" false =
      getResponseMapKeyWith (fun _ _ => some "<-CMD:other")
        ⟨[("<-CMD:x", ⟨0, [["->RET:a\n"]], []⟩)], true⟩ "<-CMD:x" false ∧
    readReplayResponses ⟨[("<-CMD:x", ⟨0, [["->RET:a\n"]], []⟩)], true⟩
        true "<-CMD:x" ["RET"] false =
      (match makeResponses [("<-CMD:x", ⟨0, [["->RET:a\n"]], []⟩)]
          ⟨0, [["->RET:a\n"]], []⟩ ["RET"] with
       | none => .error .indexError
       | some (rs, h2) =>
         .ok (rs,
           { (⟨[("<-CMD:x", ⟨0, [["->RET:a\n"]], []⟩)], true⟩ : ReplayInfo) with
             responseMap :=
               updateMap [("<-CMD:x", ⟨0, [["->RET:a\n"]], []⟩)]
                 (getTrafficLookupKey "<-CMD:x") (fun _ => h2) })) :=
  claim_C4 (fun _ _ => some "<-CMD:other")
    ⟨[("<-CMD:x", ⟨0, [["->RET:a\n"]], []⟩)], true⟩ "<-CMD:x" false ["RET"]
    ⟨0, [["->RET:a\n"]], []⟩ (by decide)

/-- Claim C5: with the canonicalized key absent, forced-exact
configuration turns a non-`exact` lookup into the distinguished
`CaptureMockReplayError`; without it, a fuzzy miss yields an empty result
and no error. -/
theorem claim_C5 (info : ReplayInfo) (desc0 : String) (cls : List String)
    (hk : lookupMap info.responseMap (getTrafficLookupKey desc0) = none) :
    (info.exactMatching = true →
      getResponseMapKey info desc0 false =
        .error (.captureMockReplayError
          ("Could not find any replay request matching " ++
            getTrafficLookupKey desc0)) ∧
      readReplayResponses info true desc0 cls false =
        .error (.captureMockReplayError
          ("Could not find any replay request matching " ++
            getTrafficLookupKey desc0))) ∧
    (info.exactMatching = false →
      findBestMatch info.responseMap (getTrafficLookupKey desc0) = none →
      readReplayResponses info true desc0 cls false = .ok ([], info)) := by
  have hnone : (lookupMap info.responseMap (getTrafficLookupKey desc0)).isSome = false := by
    rw [hk]
    rfl
  constructor
  · intro hem
    have h1 : getResponseMapKey info desc0 false =
        .error (.captureMockReplayError
          ("Could not find any replay request matching " ++
            getTrafficLookupKey desc0)) := by
      rw [getResponseMapKey, getResponseMapKeyWith]
      simp [hnone, hem]
    refine ⟨h1, ?_⟩
    rw [readReplayResponses]
    simp only [Bool.not_true, Bool.false_eq_true, if_false]
    rw [h1]
  · intro hem hfuzz
    have h1 : getResponseMapKey info desc0 false = .ok none := by
      rw [getResponseMapKey, getResponseMapKeyWith]
      simp [hnone, hem, hfuzz]
    rw [readReplayResponses]
    simp only [Bool.not_true, Bool.false_eq_true, if_false]
    rw [h1]

theorem claim_C5_witness :
    getResponseMapKey ⟨[], true⟩ "<-CMD:missing" false =
      .error (.captureMockReplayError
        ("Could not find any replay request matching " ++
          getTrafficLookupKey "<-CMD:missing")) ∧
    readReplayResponses ⟨[], false⟩ true "<-CMD:missing" [] false =
      .ok ([], ⟨[], false⟩) := by
  constructor
  · exact ((claim_C5 ⟨[], true⟩ "<-CMD:missing" [] (by decide)).1 rfl).1
  · exact (claim_C5 ⟨[], false⟩ "<-CMD:missing" [] (by decide)).2 rfl (by decide)

lemma foldl_fixed {α : Type _} {β : Type _} (f : α → β → α) (l : List β)
    (a : α) (h : ∀ acc x, x ∈ l → f acc x = acc) : l.foldl f a = a := by
  induction l generalizing a with
  | nil => rfl
  | cons x xs ih =>
    rw [List.foldl_cons, h a x (by simp)]
    exact ih a (fun acc y hy => h acc y (by simp [hy]))

lemma foldl_init_fixed {α : Type _} {β : Type _} (f : α → β → α)
    (l : List β) (a : α) (h : ∀ x ∈ l, f a x = a) : l.foldl f a = a := by
  induction l with
  | nil => rfl
  | cons x xs ih =>
    rw [List.foldl_cons, h x (by simp)]
    exact ih (fun y hy => h y (by simp [hy]))

lemma runLen_eq_zero (xs ys : List String) (hdisj : ∀ x ∈ xs, x ∉ ys) :
    runLen xs ys = 0 := by
  cases xs with
  | nil => rfl
  | cons x xs2 =>
    cases ys with
    | nil => rfl
    | cons y ys2 =>
      have hne : x ≠ y := by
        intro hxy
        exact hdisj x (by simp) (by simp [hxy])
      simp [runLen, hne]

lemma matchLenAt_eq_zero (a b : List String) (hdisj : ∀ x ∈ a, x ∉ b)
    (i j : Nat) : matchLenAt a b i j = 0 := by
  apply runLen_eq_zero
  intro x hx hxb
  exact hdisj x (List.drop_subset _ _ hx) (List.drop_subset _ _ hxb)

lemma findLongestMatch_zero (a b : List String)
    (hz : ∀ i j, matchLenAt a b i j = 0) :
    findLongestMatch a b = (0, 0, 0) := by
  rw [findLongestMatch]
  apply foldl_fixed
  intro acc i _
  apply foldl_fixed
  intro acc2 j _
  rw [hz i j]
  simp

/-- When the two token lists share no element, the block matcher returns
only the terminal zero-length block. -/
lemma getMatchingBlocks_disjoint (a b : List String)
    (hdisj : ∀ x ∈ a, x ∉ b) :
    getMatchingBlocks a b = [⟨a.length, b.length, 0⟩] := by
  rw [getMatchingBlocks]
  have h1 : matchingBlocksFuel (a.length + 1) a b 0 0 = [] := by
    rw [matchingBlocksFuel, findLongestMatch_zero a b (matchLenAt_eq_zero a b hdisj)]
    rfl
  rw [h1]
  rfl

/-- A candidate with no token in common with the query and at most 100000
unmatched responses never beats the initial sentinel. -/
lemma isBetterMatch_disjoint_false (words : List String) (u : Int)
    (target : List String) (hdisj : ∀ w ∈ words, w ∉ target)
    (hu : u ≤ 100000) :
    isBetterMatch ⟨words, u⟩ ⟨[], 100000⟩ target = false := by
  rw [isBetterMatch]
  have h1 := getMatchingBlocks_disjoint words target hdisj
  have h2 : getMatchingBlocks [] target = [⟨0, target.length, 0⟩] :=
    getMatchingBlocks_disjoint [] target (by simp)
  simp only [h1, h2, commonElementCount, nonMatchingSequenceCount,
    lastBlockReachesEnd, List.map_cons, List.map_nil, List.sum_cons,
    List.sum_nil, List.length_cons, List.length_nil]
  norm_num
  omega

/-- Claim C10: when every same-category candidate shares no token with the
query and has unmatched-response count at most 100000, `findBestMatch`
returns no match. -/
theorem claim_C10 (m : ResponseMap) (desc : String)
    (hyp : ∀ p ∈ m, sameType desc p.1 = true →
      (∀ w ∈ getWords p.1, w ∉ getWords desc) ∧
      getUnmatchedResponseCount p.2 ≤ 100000) :
    findBestMatch m desc = none := by
  simp only [findBestMatch]
  rw [foldl_init_fixed]
  intro p hp
  by_cases hst : sameType desc p.1
  · obtain ⟨hdisj, hu⟩ := hyp p hp hst
    simp [hst, isBetterMatch_disjoint_false (getWords p.1)
      (getUnmatchedResponseCount p.2) (getWords desc) hdisj hu]
  · simp [hst]

theorem claim_C10_witness :
    findBestMatch [("<-CMD:zzz", ⟨0, [["x"]], []⟩)] "<-CMD:abc" = none :=
  claim_C10 [("<-CMD:zzz", ⟨0, [["x"]], []⟩)] "<-CMD:abc" (by decide)

lemma addToLastGeneration_append (gens : List (List String))
    (g : List String) (s : String) :
    addToLastGeneration s (gens ++ [g]) = gens ++ [g ++ [s]] := by
  induction gens with
  | nil => rfl
  | cons g2 gens2 ih =>
    cases gens2 with
    | nil => rfl
    | cons g3 gens3 =>
      show g2 :: addToLastGeneration s ((g3 :: gens3) ++ [g]) = _
      rw [ih]
      rfl

lemma parse_payloads (k : String) (qs : List String)
    (hqs : ∀ q ∈ qs, pyStartsWith q "<-" = false)
    (gens : List (List String)) (g : List String) :
    List.foldl parseStep ⟨[(k, ⟨0, gens ++ [g], []⟩)], some k⟩ qs =
      ⟨[(k, ⟨0, gens ++ [g ++ qs], []⟩)], some k⟩ := by
  induction qs generalizing g with
  | nil => simp
  | cons q qs2 ih =>
    rw [List.foldl_cons]
    have hstep : parseStep ⟨[(k, ⟨0, gens ++ [g], []⟩)], some k⟩ q =
        ⟨[(k, ⟨0, gens ++ [g ++ [q]], []⟩)], some k⟩ := by
      rw [parseStep, hqs q (by simp)]
      simp [updateMap, addToLastGeneration_append]
    rw [hstep, ih (fun q2 hq2 => hqs q2 (by simp [hq2])) (g ++ [q])]
    simp

lemma parse_srv_pairs (ps : List (String × List String))
    (hps : ∀ p ∈ ps, pyStartsWith p.1 "<-" = true ∧
      getTrafficLookupKey (pyStrip p.1) = "<-SRV" ∧
      pyStartsWith p.1 "<-PYT" = false ∧
      ∀ q ∈ p.2, pyStartsWith q "<-" = false)
    (gens : List (List String)) :
    List.foldl parseStep ⟨[("<-SRV", ⟨0, gens, []⟩)], some "<-SRV"⟩
        (flattenTrace ps) =
      ⟨[("<-SRV", ⟨0, gens ++ ps.map Prod.snd, []⟩)], some "<-SRV"⟩ := by
  induction ps generalizing gens with
  | nil => simp [flattenTrace]
  | cons p ps2 ih =>
    obtain ⟨h1, h2, h3, h4⟩ := hps p (by simp)
    simp only [flattenTrace, List.flatMap_cons, List.cons_append,
      List.foldl_cons, List.foldl_append]
    have hstep : parseStep ⟨[("<-SRV", ⟨0, gens, []⟩)], some "<-SRV"⟩ p.1 =
        ⟨[("<-SRV", ⟨0, gens ++ [[]], []⟩)], some "<-SRV"⟩ := by
      rw [parseStep, h1, h2]
      simp [lookupMap, updateMap, h3]
    rw [hstep, parse_payloads "<-SRV" p.2 h4 gens []]
    have := ih (fun p2 hp2 => hps p2 (by simp [hp2])) (gens ++ [p.2])
    rw [show flattenTrace ps2 = List.flatMap ps2 (fun p => p.1 :: p.2) from rfl] at this
    simp only [List.nil_append] at this ⊢
    rw [this]
    simp

lemma parse_srv_trace (ps : List (String × List String))
    (hps : ∀ p ∈ ps, pyStartsWith p.1 "<-" = true ∧
      getTrafficLookupKey (pyStrip p.1) = "<-SRV" ∧
      pyStartsWith p.1 "<-PYT" = false ∧
      ∀ q ∈ p.2, pyStartsWith q "<-" = false)
    (hne : ps ≠ []) :
    parseTrafficList (flattenTrace ps) =
      [("<-SRV", ⟨0, ps.map Prod.snd, []⟩)] := by
  cases ps with
  | nil => exact absurd rfl hne
  | cons p ps2 =>
    obtain ⟨h1, h2, h3, h4⟩ := hps p (by simp)
    rw [parseTrafficList]
    simp only [flattenTrace, List.flatMap_cons, List.cons_append,
      List.foldl_cons, List.foldl_append]
    have hstep : parseStep ⟨[], none⟩ p.1 =
        ⟨[("<-SRV", ⟨0, [[]], []⟩)], some "<-SRV"⟩ := by
      rw [parseStep, h1, h2]
      rfl
    rw [hstep]
    have hpay := parse_payloads "<-SRV" p.2 h4 [] []
    simp only [List.nil_append] at hpay
    rw [hpay]
    have hrest := parse_srv_pairs ps2 (fun p2 hp2 => hps p2 (by simp [hp2])) [p.2]
    rw [show flattenTrace ps2 = List.flatMap ps2 (fun p => p.1 :: p.2) from rfl] at hrest
    rw [hrest]
    simp

lemma replaySeq_single (k : String) (cls : List String) (em ex : Bool)
    (desc0 : String) (hdesc : getTrafficLookupKey desc0 = k)
    (gens : List (List String)) :
    ∀ n t, t + n ≤ gens.length →
    replaySeq ⟨[(k, ⟨t, gens, []⟩)], em⟩ true desc0 cls ex n =
      .ok (((gens.drop t).take n).map (mkResponseList cls),
           ⟨[(k, ⟨t + n, gens, []⟩)], em⟩) := by
  intro n
  induction n with
  | zero =>
    intro t ht
    simp [replaySeq]
  | succ n2 ih =>
    intro t ht
    have htlt : t < gens.length := by omega
    have hne : gens ≠ [] := by
      intro hcon
      subst hcon
      simp at htlt
    rw [replaySeq]
    have hkey : getResponseMapKey ⟨[(k, ⟨t, gens, []⟩)], em⟩ desc0 ex =
        .ok (some k) := by
      rw [getResponseMapKey, getResponseMapKeyWith, hdesc]
      simp [lookupMap]
    have hgc : getCurrentStrings [(k, ⟨t, gens, []⟩)]
        (⟨t, gens, []⟩ : ReplayedResponseHandler) = some (gens.getD t [], 1) := by
      have := getCurrentStrings_no_inter [(k, ⟨t, gens, []⟩)] ⟨t, gens, []⟩ rfl hne
      simpa [htlt] using this
    have hread : readReplayResponses ⟨[(k, ⟨t, gens, []⟩)], em⟩ true desc0 cls ex =
        .ok (mkResponseList cls (gens.getD t []),
             ⟨[(k, ⟨t + 1, gens, []⟩)], em⟩) := by
      rw [readReplayResponses]
      simp only [Bool.not_true, Bool.false_eq_true, if_false]
      rw [hkey]
      simp only [lookupMap, eq_self_iff_true, if_true, makeResponses]
      rw [hgc]
      simp [updateMap]
    rw [hread]
    have hred : (match Except.ok (mkResponseList cls (gens.getD t []),
          (⟨[(k, ⟨t + 1, gens, []⟩)], em⟩ : ReplayInfo)) with
        | Except.error e => (Except.error e :
            Except ReplayError (List (List (String × String)) × ReplayInfo))
        | Except.ok (rs, info2) =>
          match replaySeq info2 true desc0 cls ex n2 with
          | Except.error e => Except.error e
          | Except.ok (rest, info3) => Except.ok (rs :: rest, info3)) =
        (match replaySeq (⟨[(k, ⟨t + 1, gens, []⟩)], em⟩ : ReplayInfo)
            true desc0 cls ex n2 with
        | Except.error e => Except.error e
        | Except.ok (rest, info3) =>
          Except.ok (mkResponseList cls (gens.getD t []) :: rest, info3)) := rfl
    rw [hred, ih (t + 1) (by omega)]
    have hdrop : gens.drop t = gens.getD t [] :: gens.drop (t + 1) := by
      rw [List.drop_eq_getElem_cons htlt]
      simp [htlt]
    rw [hdrop]
    simp only [List.take_succ_cons, List.map_cons]
    have harith : t + (n2 + 1) = t + 1 + n2 := by omega
    rw [harith]

/-- Claim C7: canonicalization maps every key starting with the server
marker to the single literal sentinel and leaves every other key
unchanged; parsing a trace of n inbound server-marker chunks (any
suffixes) with their payload chunks produces exactly one store entry under
the sentinel holding n generations, and n lookups of any query that
canonicalizes to the sentinel consume them in the original recorded
order. -/
theorem claim_C7 :
    (∀ s, pyStartsWith s "<-SRV" = true → getTrafficLookupKey s = "<-SRV") ∧
    (∀ s, pyStartsWith s "<-SRV" = false → getTrafficLookupKey s = s) ∧
    (∀ (ps : List (String × List String)) (desc0 : String)
        (cls : List String) (em ex : Bool), ps ≠ [] →
      (∀ p ∈ ps, pyStartsWith p.1 "<-" = true ∧
        getTrafficLookupKey (pyStrip p.1) = "<-SRV" ∧
        pyStartsWith p.1 "<-PYT" = false ∧
        ∀ q ∈ p.2, pyStartsWith q "<-" = false) →
      getTrafficLookupKey desc0 = "<-SRV" →
      parseTrafficList (flattenTrace ps) =
        [("<-SRV", ⟨0, ps.map Prod.snd, []⟩)] ∧
      replaySeq ⟨[("<-SRV", ⟨0, ps.map Prod.snd, []⟩)], em⟩ true desc0 cls ex
          ps.length =
        .ok (ps.map (fun p => mkResponseList cls p.2),
             ⟨[("<-SRV", ⟨ps.length, ps.map Prod.snd, []⟩)], em⟩)) := by
  refine ⟨?_, ?_, ?_⟩
  · intro s hs
    rw [getTrafficLookupKey, hs]
    rfl
  · intro s hs
    rw [getTrafficLookupKey, hs]
    rfl
  · intro ps desc0 cls em ex hne hps hdesc
    refine ⟨parse_srv_trace ps hps hne, ?_⟩
    have := replaySeq_single "<-SRV" cls em ex desc0 hdesc (ps.map Prod.snd)
      ps.length 0 (by simp)
    simp only [Nat.zero_add, List.drop_zero] at this
    rw [this]
    have hmap : List.map (mkResponseList cls)
        (List.take ps.length (List.map Prod.snd ps)) =
        List.map (fun p => mkResponseList cls p.2) ps := by
      rw [List.take_of_length_le (by simp), List.map_map]
      rfl
    rw [hmap]

theorem claim_C7_witness :
    parseTrafficList
        (flattenTrace [("<-SRV:A\n", ["->RET:a\n"]), ("<-SRV:B\n", ["->RET:b\n"]),
          ("<-SRV:C\n", ["->RET:c\n"])]) =
      [("<-SRV", ⟨0, [["->RET:a\n"], ["->RET:b\n"], ["->RET:c\n"]], []⟩)] ∧
    replaySeq
        ⟨[("<-SRV", ⟨0, [["->RET:a\n"], ["->RET:b\n"], ["->RET:c\n"]], []⟩)],
         false⟩
        true "<-SRV:ZZZ" ["RET"] false 3 =
      .ok ([[("RET", "a\n")], [("RET", "b\n")], [("RET", "c\n")]],
        ⟨[("<-SRV", ⟨3, [["->RET:a\n"], ["->RET:b\n"], ["->RET:c\n"]], []⟩)],
         false⟩) := by
  have := claim_C7.2.2
    [("<-SRV:A\n", ["->RET:a\n"]), ("<-SRV:B\n", ["->RET:b\n"]),
     ("<-SRV:C\n", ["->RET:c\n"])]
    "<-SRV:ZZZ" ["RET"] false false (by decide) (by decide) (by decide)
  obtain ⟨hp, hr⟩ := this
  exact ⟨hp, hr⟩

end Replay
